import Mathlib

/-!
Verification development for the rust-terminal repository
(src/alacritty/src/display.rs, src/alacritty/src/bin/alacritty.rs,
src/alacritty/src/tty/mod.rs).

The display subsystem and the main display loop are shallowly embedded:
straight-line stateful code becomes explicit event traces or pure state
transformers, machine integers become Nat with explicit reduction modulo
2^32 where u32 arithmetic is performed, and f32 quantities whose only
relevant operations are comparison, addition and floor become rationals.
Parts of the repository that are referenced but whose implementation is
not part of the three source files (the Term grid resize, the FairMutex)
are modelled from the specification and marked as such in doc comments.
-/

/-- One observable step of Display::draw (display.rs, lines 290-331),
in program order.  The MutexGuard obtained by `terminal.lock()` at the
top of draw is dropped at the end of the function body scope, hence
`lockRelease` is the final event of the trace. -/
inductive DrawEvent
  | lockAcquire
  | copySizeInfo
  | readBellIntensity
  | collectCells
  | writeDirtyFlag
  | apiClearScreen
  | renderGridCells
  | renderTimerString
  | lockRelease
deriving DecidableEq, Repr

/-- Straight-line event trace of Display::draw (display.rs 290-331).
`terminal.lock()` (line 291) produces `lockAcquire`; copying the size
info and the visual-bell intensity (292-293) and collecting the
renderable cells (295-297) follow; line 300 writes the dirty flag;
`api.clear(terminal.background_color())` (310) and
`api.render_cells` (313) run inside the first `with_api` call; when
`render_timer` is set, `api.render_string` (327) draws the timer.  The
guard named `terminal` is still used on line 310, so it is dropped only
when the function returns, after all rendering. -/
def drawTrace (render_timer : Bool) : List DrawEvent :=
  [DrawEvent.lockAcquire, DrawEvent.copySizeInfo, DrawEvent.readBellIntensity,
   DrawEvent.collectCells, DrawEvent.writeDirtyFlag, DrawEvent.apiClearScreen,
   DrawEvent.renderGridCells]
  ++ (if render_timer then [DrawEvent.renderTimerString] else [])
  ++ [DrawEvent.lockRelease]

/-- A command queued on the display's resize channel
(display.rs, `enum DisplayCommand`): a new window size in pixels, or a
new HiDPI scale factor.  The f32 factor is embedded as a rational. -/
inductive DisplayCommand
  | NewSize (w h : Nat)
  | NewHiDPIFactor (dpr : ℚ)
deriving DecidableEq, Repr

/-- Size metadata recorded by the display (term::SizeInfo as used by
display.rs).  Widths, heights and cell dimensions are written from u32
values or floored f32 cell sizes, so the numeric content is embedded
with Nat fields. -/
structure SizeInfo where
  width : Nat
  height : Nat
  cell_width : Nat
  cell_height : Nat
  padding_x : Nat
  padding_y : Nat
deriving DecidableEq, Repr

/-- The fields of the Term terminal state that the three source files
read or write: the requested font size, the dirty flag, whether the
visual-bell animation has completed (`visual_bell.completed()`), the
queued title and urgency side-channel values, and the recorded size. -/
structure Term where
  font_size : ℚ
  dirty : Bool
  bell_completed : Bool
  next_title : Option String
  next_is_urgent : Option Bool
  size_info : SizeInfo
deriving DecidableEq, Repr

/-- The fields of Display that handle_resize touches (display.rs,
`struct Display`): the render-timer option, the font size last applied
to the glyph cache, and the recorded SizeInfo. -/
structure Display where
  render_timer : Bool
  font_size : ℚ
  size_info : SizeInfo
deriving DecidableEq, Repr

/-- One iteration of the `while let Ok(sz) = self.rx.try_recv()` drain
in Display::handle_resize (display.rs 250-255): a NewSize command
overwrites the pending new size, a NewHiDPIFactor command overwrites
the pending scale factor. -/
def coalesceStep (acc : Option (Nat × Nat) × Option ℚ) :
    DisplayCommand → Option (Nat × Nat) × Option ℚ
  | DisplayCommand.NewSize w h => (some (w, h), acc.2)
  | DisplayCommand.NewHiDPIFactor dpr => (acc.1, some dpr)

/-- The full channel drain of Display::handle_resize: the queued
commands are consumed front to back, keeping only the most recent
NewSize and the most recent NewHiDPIFactor. -/
def coalesce (q : List DisplayCommand) : Option (Nat × Nat) × Option ℚ :=
  q.foldl coalesceStep (none, none)

/-- The dimensions of the most recently queued NewSize notification,
if any (the reference reading of "most recent" used to judge the
coalescing loop). -/
def lastNewSize : List DisplayCommand → Option (Nat × Nat)
  | [] => none
  | DisplayCommand.NewSize w h :: rest => some ((lastNewSize rest).getD (w, h))
  | DisplayCommand.NewHiDPIFactor _ :: rest => lastNewSize rest

/-- The font-size-modification test of display.rs line 258:
`terminal.font_size != self.font_size || new_dpr.is_some()`. -/
def fontSizeChanged (d : Display) (t : Term) (new_dpr : Option ℚ) : Bool :=
  decide (t.font_size ≠ d.font_size) || new_dpr.isSome

/-- Effect of lines 259-260 on the display when a font-size change was
detected: self.font_size is set from the terminal and
update_glyph_cache rewrites the recorded cell dimensions.  The new
cell dimensions come from external font metrics, so they are passed in
as the oracle argument `nc`; width and height are untouched. -/
def glyphUpdatedDisplay (d : Display) (t : Term) (nc : Nat × Nat) : Display :=
  { d with font_size := t.font_size,
           size_info := { d.size_info with cell_width := nc.1, cell_height := nc.2 } }

/-- Lines 262-265 combined with the drain result: the pending new size,
where a detected font-size change with an empty resize queue forces a
resize to the current recorded width and height. -/
def effectiveNewSize (d1 : Display) (changed : Bool) :
    Option (Nat × Nat) → Option (Nat × Nat)
  | some wh => some wh
  | none =>
    if changed then some (d1.size_info.width, d1.size_info.height) else none

/-- Observable outcome of one Display::handle_resize call: the updated
display and terminal, the sizes passed to terminal.resize (in call
order), the (listener, size) notifications issued in order, and the
sizes passed to renderer.resize. -/
structure HandleResizeResult where
  display : Display
  term : Term
  resizeCalls : List SizeInfo
  notifications : List (Nat × SizeInfo)
  rendererResizes : List (Nat × Nat)
deriving DecidableEq, Repr

/-- The `changed` flag of one handle_resize call: the line-258 test
applied to the scale factor kept by the channel drain. -/
def hrChanged (d : Display) (t : Term) (q : List DisplayCommand) : Bool :=
  fontSizeChanged d t (coalesce q).2

/-- The display state after the font-size branch (lines 257-266) of
one handle_resize call. -/
def hrDisplay1 (d : Display) (t : Term) (q : List DisplayCommand)
    (nc : Nat × Nat) : Display :=
  if hrChanged d t q then glyphUpdatedDisplay d t nc else d

/-- The value of the `new_size` variable at line 270 of one
handle_resize call. -/
def hrNewSize (d : Display) (t : Term) (q : List DisplayCommand)
    (nc : Nat × Nat) : Option (Nat × Nat) :=
  effectiveNewSize (hrDisplay1 d t q nc) (hrChanged d t q) (coalesce q).1

/-- The resize-application block of handle_resize (display.rs 270-282):
the recorded width and height are updated, terminal.resize is called
once with the updated SizeInfo, every listener in `items` is notified
in slice order with that same SizeInfo, and the renderer is resized.
terminal.resize itself lives outside these source files; its effect on
the terminal is recorded abstractly as the updated size. -/
def applyNewSize (d1 : Display) (t : Term) (items : List Nat)
    (wh : Nat × Nat) : HandleResizeResult :=
  let si := { d1.size_info with width := wh.1, height := wh.2 }
  { display := { d1 with size_info := si },
    term := { t with size_info := si },
    resizeCalls := [si],
    notifications := items.map (fun i => (i, si)),
    rendererResizes := [wh] }

/-- Display::handle_resize (display.rs 237-283).  `items` is the list
of resize-listener identities (the `&mut [&mut OnResize]` slice), `nc`
the cell dimensions that update_glyph_cache would compute from the
font metrics.  The queue is drained and coalesced first; a font-size
change updates the glyph cache and, when no resize is pending, forces
one at the current size; if a new size remains, the resize block runs
once with it, otherwise nothing further happens. -/
def handle_resize (d : Display) (t : Term) (q : List DisplayCommand)
    (items : List Nat) (nc : Nat × Nat) : HandleResizeResult :=
  match hrNewSize d t q nc with
  | none =>
    { display := hrDisplay1 d t q nc, term := t, resizeCalls := [],
      notifications := [], rendererResizes := [] }
  | some wh => applyNewSize (hrDisplay1 d t q nc) t items wh

/-- One observable step of an iteration of the main display loop
(bin/alacritty.rs 244-295), in program order. -/
inductive LoopEvent
  | processEventsAcquire
  | configReloadCheck
  | ximSpotUpdate
  | coalesceDrain
  | applyTermResize
  | notifyResizeListeners
  | queryTitleChannel
  | queryUrgentChannel
  | dropTerminalLock
  | drawCall
  | swapBuffers
  | checkShouldExit
deriving DecidableEq, Repr

/-- Event trace of one main-loop iteration (bin/alacritty.rs 244-295).
`processor.process_events` (246) returns the terminal lock already
held; when `needs_draw` (261) the XIM spot is updated, handle_resize
drains and coalesces the resize channel (270) and, when a resize is
pending (`resizeApplied`), applies terminal.resize and notifies the
listeners; the title and urgency channels are queried (272-282), the
lock is dropped (284), draw runs (287) and buffers are swapped; the
exit flag is checked last (292). -/
def loopIterTrace (needsDraw resizeApplied : Bool) : List LoopEvent :=
  [LoopEvent.processEventsAcquire, LoopEvent.configReloadCheck]
  ++ (if needsDraw then
        [LoopEvent.ximSpotUpdate, LoopEvent.coalesceDrain]
        ++ (if resizeApplied then
              [LoopEvent.applyTermResize, LoopEvent.notifyResizeListeners]
            else [])
        ++ [LoopEvent.queryTitleChannel, LoopEvent.queryUrgentChannel,
            LoopEvent.dropTerminalLock, LoopEvent.drawCall, LoopEvent.swapBuffers]
      else [])
  ++ [LoopEvent.checkShouldExit]

/-- The effect of Display::draw on the terminal state (display.rs
line 300): under the lock, the dirty flag is overwritten with
`!terminal.visual_bell.completed()`, so it stays raised while the
visual-bell animation is still running. -/
def drawTermUpdate (t : Term) : Term :=
  { t with dirty := !t.bell_completed }

/-- A message on the I/O event loop's command channel
(event_loop::Msg as used by bin/alacritty.rs): queued bytes to write
to the pty, or the cooperative shutdown request. -/
inductive Msg
  | Input (bytes : List Nat)
  | Shutdown
deriving DecidableEq, Repr

/-- The main display loop of `run` (bin/alacritty.rs 244-299), driven
by the per-iteration values of `tty::process_should_exit()`.  Each
iteration runs the loop body and then checks the exit flag; `break` is
the only way out of the loop, and after the loop exactly one
Msg::Shutdown is sent on the event-loop channel.  The result is the
number of iterations executed and the messages sent on the channel at
shutdown, or none when the supplied flag sequence is exhausted with the
loop still running. -/
def runMainLoop : List Bool → Option (Nat × List Msg)
  | [] => none
  | e :: rest =>
    if e then some (1, [Msg.Shutdown])
    else
      match runMainLoop rest with
      | some (n, ms) => some (n + 1, ms)
      | none => none

/-- The window updates performed by the needs_draw block of one
main-loop iteration (bin/alacritty.rs 261-282): whether each side
channel was queried, the titles passed to window.set_title, and the
urgency values passed to window.set_urgent. -/
structure DrawSectionEffects where
  queriedTitle : Bool
  queriedUrgent : Bool
  titlesSet : List String
  urgentsSet : List Bool
deriving DecidableEq, Repr

/-- The needs_draw block of one main-loop iteration (bin/alacritty.rs
261-282).  Only when `terminal_lock.needs_draw()` holds are the two
side channels queried; a queried title is passed to window.set_title
unconditionally (273), and a queried urgency value is passed to
window.set_urgent exactly when it is false or the window is not
focused (279-281). -/
def drawSection (needsDraw : Bool) (nextTitle : Option String)
    (nextUrgent : Option Bool) (isFocused : Bool) : DrawSectionEffects :=
  if needsDraw then
    { queriedTitle := true
      queriedUrgent := true
      titlesSet :=
        match nextTitle with
        | some title => [title]
        | none => []
      urgentsSet :=
        match nextUrgent with
        | some u => if !u || !isFocused then [u] else []
        | none => [] }
  else
    { queriedTitle := false, queriedUrgent := false,
      titlesSet := [], urgentsSet := [] }

/-- A concrete SizeInfo used to evaluate the definitions on explicit
inputs: a 640 x 480 window of 8 x 16 cells with 2-pixel padding. -/
def sizeInfo0 : SizeInfo :=
  { width := 640, height := 480, cell_width := 8, cell_height := 16,
    padding_x := 2, padding_y := 2 }

/-- A concrete terminal state used to evaluate the definitions on
explicit inputs; its visual bell is still animating. -/
def term0 : Term :=
  { font_size := 0, dirty := true, bell_completed := false,
    next_title := none, next_is_urgent := none, size_info := sizeInfo0 }

/-- A concrete display state used to evaluate the definitions on
explicit inputs. -/
def display0 : Display :=
  { render_timer := false, font_size := 0, size_info := sizeInfo0 }

/-- Modelled from the spec: one grid position (section 3, Cell) — a
character, foreground and background colors, and a style-flags set.
The Cell implementation is not among the three source files. -/
structure Cell where
  ch : Char
  fg : Nat
  bg : Nat
  flags : Nat
deriving DecidableEq, Repr

/-- Modelled from the spec: the blank cell used to pad resized lines
and fresh rows. -/
def blankCell : Cell :=
  { ch := ' ', fg := 0, bg := 0, flags := 0 }

/-- Modelled from the spec (section 3, Grid): the visible region as an
ordered sequence of fixed-width lines plus the bounded scrollback
history (oldest line first).  The Grid implementation is not among the
three source files. -/
structure Grid where
  cols : Nat
  visible : List (List Cell)
  scrollback : List (List Cell)
deriving DecidableEq, Repr

/-- Modelled from the spec (section 3, Cursor): the cursor position. -/
structure Cursor where
  row : Nat
  col : Nat
deriving DecidableEq, Repr

/-- The Grid width invariant of spec section 3: every visible and every
scrollback line has exactly the grid's column count of cells. -/
def Grid.wellFormed (g : Grid) : Prop :=
  (∀ l ∈ g.visible, l.length = g.cols) ∧ (∀ l ∈ g.scrollback, l.length = g.cols)

/-- Modelled from the spec (section 4.3): adjusting one line to a new
width — shrinking truncates, growing pads with blank cells. -/
def resizeLine (c : Nat) (l : List Cell) : List Cell :=
  if l.length ≤ c then l ++ List.replicate (c - l.length) blankCell
  else l.take c

/-- Modelled from the spec (sections 3 and 4.3): Grid resize-in-place.
Every line is adjusted to the new width; growing the height pulls the
most recent lines back from scrollback and then pads with blank lines,
shrinking it moves the topmost visible lines into scrollback.  The
Term::resize called at display.rs line 275 is not among the three
source files. -/
def Grid.resize (g : Grid) (rows cols : Nat) : Grid :=
  let ls := g.visible.map (resizeLine cols)
  let sb := g.scrollback.map (resizeLine cols)
  if ls.length ≤ rows then
    let need := rows - ls.length
    let pulled := min need sb.length
    { cols := cols
      visible := sb.drop (sb.length - pulled) ++ ls
        ++ List.replicate (need - pulled) (List.replicate cols blankCell)
      scrollback := sb.take (sb.length - pulled) }
  else
    { cols := cols
      visible := ls.drop (ls.length - rows)
      scrollback := sb ++ ls.take (ls.length - rows) }

/-- Modelled from the spec (section 3, Cursor invariant):
out-of-bounds cursor positions clamp to the new grid bounds. -/
def clampCursor (cur : Cursor) (rows cols : Nat) : Cursor :=
  { row := min cur.row (rows - 1), col := min cur.col (cols - 1) }

/-- Modelled from the spec: the content-and-cursor part of a terminal
resize — the grid is resized in place and the cursor is clamped to the
new bounds. -/
def termGridResize (g : Grid) (cur : Cursor) (rows cols : Nat) :
    Grid × Cursor :=
  (g.resize rows cols, clampCursor cur rows cols)

/-- A concrete 2 x 2 grid with one scrollback line, used to evaluate
the resize model on explicit input. -/
def grid0 : Grid :=
  { cols := 2,
    visible := [[blankCell, blankCell], [blankCell, blankCell]],
    scrollback := [[blankCell, blankCell]] }

/-- Modelled from the spec (section 5): the two long-lived units of
execution that contend for the Synchronization Wrapper — the I/O loop
and the render consumer. -/
inductive Thread
  | ioLoop
  | consumer
deriving DecidableEq, Repr

/-- An acquisition-protocol event of the fair lock: a thread asks for
the lock, a thread is granted the lock, a thread releases it. -/
inductive LockEvent
  | request (t : Thread)
  | grant (t : Thread)
  | release (t : Thread)
deriving DecidableEq, Repr

/-- Modelled from the spec (section 5, Synchronization Wrapper): the
state of the fairness-guaranteeing mutual-exclusion lock — the current
owner, if any, and the FIFO queue of waiting threads.  The FairMutex
implementation (sync module) is not among the three source files. -/
structure LockState where
  owner : Option Thread
  queue : List Thread
deriving DecidableEq, Repr

/-- Modelled from the spec: one transition of the fair lock.  A
request enqueues the thread at the back of the waiting queue; a grant
is only possible for the thread at the front of the queue and only
while the lock is free; a release is only possible for the current
owner.  Returns none for transitions the protocol forbids. -/
def lockStep (s : LockState) : LockEvent → Option LockState
  | LockEvent.request t => some { s with queue := s.queue ++ [t] }
  | LockEvent.grant t =>
    match s.owner, s.queue with
    | none, u :: rest =>
      if u = t then some { owner := some t, queue := rest } else none
    | _, _ => none
  | LockEvent.release t =>
    if s.owner = some t then some { owner := none, queue := s.queue } else none

/-- Runs a sequence of lock-protocol events from a state, failing when
any event is forbidden. -/
def runLock (s : LockState) : List LockEvent → Option LockState
  | [] => some s
  | e :: evs =>
    match lockStep s e with
    | some s1 => runLock s1 evs
    | none => none

/-- The configured terminal dimensions in cells (config::Dimensions as
consumed by Display::new via columns_u32 and lines_u32). -/
structure Dimensions where
  columns : Nat
  lines : Nat
deriving DecidableEq, Repr

/-- The configured window padding in pixels (config.padding(); the u8
fields are embedded as Nat, so each is below 256). -/
structure Padding where
  x : Nat
  y : Nat
deriving DecidableEq, Repr

/-- The InitialSize::Cells branch of Display::new (display.rs
128-149): the window pixel size is computed in u32 arithmetic
(modelled by reduction modulo 2^32 at each operation) as
cell_width * columns + 2 * padding_x by
cell_height * lines + 2 * padding_y, and that same size is both passed
to renderer.resize and recorded as the SizeInfo width and height,
together with the cell dimensions and the padding. -/
def display_new_cells (cw ch : Nat) (dims : Dimensions) (pad : Padding) :
    (Nat × Nat) × SizeInfo :=
  let w := (cw * dims.columns % 2 ^ 32 + 2 * pad.x) % 2 ^ 32
  let h := (ch * dims.lines % 2 ^ 32 + 2 * pad.y) % 2 ^ 32
  ((w, h),
   { width := w, height := h, cell_width := cw, cell_height := ch,
     padding_x := pad.x, padding_y := pad.y })

/-- Display::new_glyph_cache (display.rs 183-217): the cell width
(resp. height) is the font's average advance (resp. line height) plus
the configured font offset; when either is less than 1 the function
panics ("font offset is too small", modelled as none); otherwise the
floored cell dimensions are returned.  The f32 quantities are embedded
as rationals and the i8 offsets as integers. -/
def new_glyph_cache (average_advance line_height : ℚ)
    (offset_x offset_y : ℤ) : Option (ℤ × ℤ) :=
  if average_advance + (offset_x : ℚ) < 1 ∨ line_height + (offset_y : ℚ) < 1
  then none
  else some (⌊average_advance + (offset_x : ℚ)⌋, ⌊line_height + (offset_y : ℚ)⌋)

/-- C1 counterexample: the claim asserts that draw releases the
Synchronization Wrapper lock before any expensive rendering work.  In
the concrete trace of a draw call with the render timer enabled, the
lock release does not precede the screen clear (nor, a fortiori, the
grid-cell or timer rendering), so the claim is false. -/
theorem C1_counterexample_lock_not_released_before_rendering :
    ¬ ((drawTrace true).indexOf DrawEvent.lockRelease
        < (drawTrace true).indexOf DrawEvent.apiClearScreen) := by
  decide

/-- C1 (amended): for every draw call (render timer on or off), the
render consumer acquires the Synchronization Wrapper lock first, copies
the cell snapshot and metadata under the lock, and then KEEPS the lock
through all the expensive rendering work (clearing the screen, drawing
the grid cells and, when enabled, drawing the render timer); the lock
is released only as the very last step of draw. -/
theorem C1_lock_held_through_all_rendering :
    ((drawTrace false).indexOf DrawEvent.lockAcquire
        < (drawTrace false).indexOf DrawEvent.copySizeInfo
      ∧ (drawTrace false).indexOf DrawEvent.copySizeInfo
        < (drawTrace false).indexOf DrawEvent.collectCells
      ∧ (drawTrace false).indexOf DrawEvent.collectCells
        < (drawTrace false).indexOf DrawEvent.apiClearScreen
      ∧ (drawTrace false).indexOf DrawEvent.apiClearScreen
        < (drawTrace false).indexOf DrawEvent.renderGridCells
      ∧ (drawTrace false).indexOf DrawEvent.renderGridCells
        < (drawTrace false).indexOf DrawEvent.lockRelease
      ∧ (drawTrace false).getLast? = some DrawEvent.lockRelease)
    ∧ ((drawTrace true).indexOf DrawEvent.lockAcquire
        < (drawTrace true).indexOf DrawEvent.copySizeInfo
      ∧ (drawTrace true).indexOf DrawEvent.apiClearScreen
        < (drawTrace true).indexOf DrawEvent.renderGridCells
      ∧ (drawTrace true).indexOf DrawEvent.renderGridCells
        < (drawTrace true).indexOf DrawEvent.renderTimerString
      ∧ (drawTrace true).indexOf DrawEvent.renderTimerString
        < (drawTrace true).indexOf DrawEvent.lockRelease
      ∧ (drawTrace true).getLast? = some DrawEvent.lockRelease) := by
  decide

/-- Helper: the NewSize component of the channel drain, started from an
arbitrary accumulator, is the most recently queued NewSize, or the
accumulator's value when none is queued. -/
theorem coalesce_foldl_fst (q : List DisplayCommand)
    (acc : Option (Nat × Nat) × Option ℚ) :
    (q.foldl coalesceStep acc).1 =
      match lastNewSize q with
      | some wh => some wh
      | none => acc.1 := by
  induction q generalizing acc with
  | nil => rfl
  | cons c rest ih =>
    cases c with
    | NewSize w h =>
      simp only [List.foldl_cons, lastNewSize, coalesceStep, ih]
      cases hrest : lastNewSize rest <;> simp
    | NewHiDPIFactor dpr =>
      simp only [List.foldl_cons, lastNewSize, coalesceStep, ih]

/-- The channel drain keeps exactly the most recently queued NewSize
notification. -/
theorem coalesce_fst (q : List DisplayCommand) :
    (coalesce q).1 = lastNewSize q := by
  unfold coalesce
  rw [coalesce_foldl_fst]
  cases lastNewSize q <;> rfl

/-- C2 (amended): per handle_resize call, terminal.resize is invoked
at most once; when NewSize notifications are queued it is invoked
exactly once with the dimensions of the most recently queued one, the
earlier ones being discarded; but the coalescing happens AFTER the
terminal lock has been acquired (the guard is returned, already held,
by process_events at the top of the loop iteration and handed to
handle_resize), and before the single resize application, which itself
precedes the release of the lock. -/
theorem C2_resize_coalesced_once_last_size :
    (∀ (d : Display) (t : Term) (q : List DisplayCommand) (items : List Nat)
        (nc : Nat × Nat),
        (handle_resize d t q items nc).resizeCalls.length ≤ 1) ∧
    (∀ (d : Display) (t : Term) (q : List DisplayCommand) (items : List Nat)
        (nc : Nat × Nat) (w h : Nat), lastNewSize q = some (w, h) →
        ∃ si, (handle_resize d t q items nc).resizeCalls = [si]
          ∧ si.width = w ∧ si.height = h) ∧
    ((loopIterTrace true true).indexOf LoopEvent.processEventsAcquire
        < (loopIterTrace true true).indexOf LoopEvent.coalesceDrain
      ∧ (loopIterTrace true true).indexOf LoopEvent.coalesceDrain
        < (loopIterTrace true true).indexOf LoopEvent.applyTermResize
      ∧ (loopIterTrace true true).indexOf LoopEvent.applyTermResize
        < (loopIterTrace true true).indexOf LoopEvent.dropTerminalLock) := by
  refine ⟨?_, ?_, by decide⟩
  · intro d t q items nc
    unfold handle_resize
    cases hrNewSize d t q nc <;> simp [applyNewSize]
  · intro d t q items nc w h hq
    have hns : hrNewSize d t q nc = some (w, h) := by
      unfold hrNewSize
      rw [coalesce_fst, hq]
      rfl
    simp only [handle_resize, hns, applyNewSize]
    exact ⟨_, rfl, rfl, rfl⟩

/-- C2 witness: with three queued commands ending in NewSize 800 600,
handle_resize applies exactly one resize, at 800 x 600. -/
theorem C2_witness :
    lastNewSize [DisplayCommand.NewSize 300 200, DisplayCommand.NewHiDPIFactor 2,
        DisplayCommand.NewSize 800 600] = some (800, 600) ∧
    ∃ si, (handle_resize display0 term0
        [DisplayCommand.NewSize 300 200, DisplayCommand.NewHiDPIFactor 2,
         DisplayCommand.NewSize 800 600] [0, 1] (8, 16)).resizeCalls = [si]
      ∧ si.width = 800 ∧ si.height = 600 :=
  ⟨by decide,
   C2_resize_coalesced_once_last_size.2.1 display0 term0
     [DisplayCommand.NewSize 300 200, DisplayCommand.NewHiDPIFactor 2,
      DisplayCommand.NewSize 800 600] [0, 1] (8, 16) 800 600 (by decide)⟩

/-- C2 counterexample: the claim additionally asserts that the
coalescing of the notifications happens before acquiring the terminal
lock; in the trace of a drawing loop iteration that applies a resize,
the channel drain does not precede the lock acquisition (the lock is
acquired first, by process_events), so the claim as stated is false. -/
theorem C2_counterexample_coalesce_after_lock_acquired :
    ¬ ((loopIterTrace true true).indexOf LoopEvent.coalesceDrain
        < (loopIterTrace true true).indexOf LoopEvent.processEventsAcquire) := by
  decide

/-- C4: whenever handle_resize applies a coalesced resize (that is,
terminal.resize is called with some final SizeInfo s), every listener
in the items slice is notified, in the fixed order of the slice, and
each notification carries exactly that same final SizeInfo s, which is
also the size recorded on the terminal. -/
theorem C4_listeners_notified_in_order_with_final_size
    (d : Display) (t : Term) (q : List DisplayCommand) (items : List Nat)
    (nc : Nat × Nat) (s : SizeInfo)
    (h : (handle_resize d t q items nc).resizeCalls = [s]) :
    (handle_resize d t q items nc).notifications = items.map (fun i => (i, s))
      ∧ (handle_resize d t q items nc).term.size_info = s := by
  cases hns : hrNewSize d t q nc with
  | none =>
    simp only [handle_resize, hns] at h
    simp at h
  | some wh =>
    simp only [handle_resize, hns, applyNewSize] at h ⊢
    obtain ⟨hsi, -⟩ := List.cons.inj h
    rw [← hsi]
    exact ⟨rfl, rfl⟩

/-- C4 witness: a queued NewSize 800 600 with listeners [0, 1, 2]
yields notifications to 0, 1, 2 in order, all with the applied size. -/
theorem C4_witness :
    (handle_resize display0 term0 [DisplayCommand.NewSize 800 600] [0, 1, 2]
        (8, 16)).resizeCalls =
      [{ width := 800, height := 600, cell_width := 8, cell_height := 16,
         padding_x := 2, padding_y := 2 }] ∧
    ((handle_resize display0 term0 [DisplayCommand.NewSize 800 600] [0, 1, 2]
        (8, 16)).notifications = [0, 1, 2].map (fun i =>
          (i, { width := 800, height := 600, cell_width := 8, cell_height := 16,
                padding_x := 2, padding_y := 2 }))
      ∧ (handle_resize display0 term0 [DisplayCommand.NewSize 800 600] [0, 1, 2]
          (8, 16)).term.size_info =
        { width := 800, height := 600, cell_width := 8, cell_height := 16,
          padding_x := 2, padding_y := 2 }) :=
  ⟨by decide,
   C4_listeners_notified_in_order_with_final_size display0 term0
     [DisplayCommand.NewSize 800 600] [0, 1, 2] (8, 16)
     { width := 800, height := 600, cell_width := 8, cell_height := 16,
       padding_x := 2, padding_y := 2 } (by decide)⟩

/-- C3 counterexample: the claim asserts the dirty flag is set to
false after every draw; for a terminal whose visual bell is still
animating (term0), draw leaves the flag raised. -/
theorem C3_counterexample_dirty_not_cleared_during_bell :
    ¬ ((drawTermUpdate term0).dirty = false) := by
  decide

/-- C3 (amended): after every draw by the render consumer, the
terminal's dirty flag is false if and only if the visual-bell
animation has completed; while the bell is still animating, draw
leaves the flag raised so that another draw is scheduled. -/
theorem C3_dirty_cleared_iff_bell_completed (t : Term) :
    ((drawTermUpdate t).dirty = false) ↔ t.bell_completed = true := by
  cases h : t.bell_completed <;> simp [drawTermUpdate, h]

/-- C7: the main display loop terminates only when the
process-should-exit flag becomes true (each earlier iteration saw the
flag false), it stops at the first iteration that sees it true, and
upon termination the messages sent to the I/O loop's command queue are
exactly one Msg::Shutdown, a cooperative request rather than a hard
cancellation; while the flag stays false the loop never terminates and
sends nothing. -/
theorem C7_terminates_only_on_exit_flag_single_shutdown :
    (∀ (exits : List Bool) (n : Nat) (ms : List Msg),
        runMainLoop exits = some (n, ms) →
        ms = [Msg.Shutdown] ∧ 1 ≤ n ∧ n ≤ exits.length ∧
          exits.take n = List.replicate (n - 1) false ++ [true]) ∧
    (∀ m : Nat, runMainLoop (List.replicate m false) = none) := by
  constructor
  · intro exits
    induction exits with
    | nil => intro n ms h; simp [runMainLoop] at h
    | cons e rest ih =>
      intro n ms h
      cases e with
      | true =>
        simp only [runMainLoop, if_pos] at h
        obtain ⟨hn, hms⟩ := Prod.mk.inj (Option.some.inj h)
        subst hn; subst hms
        refine ⟨rfl, le_refl 1, by simp, by simp⟩
      | false =>
        simp only [runMainLoop, if_neg] at h
        cases hr : runMainLoop rest with
        | none => rw [hr] at h; exact absurd h (by simp)
        | some p =>
          obtain ⟨nr, msr⟩ := p
          rw [hr] at h
          obtain ⟨hn, hms⟩ := Prod.mk.inj (Option.some.inj h)
          obtain ⟨hms1, hn1, hnlen, htake⟩ := ih nr msr hr
          subst hn; subst hms
          refine ⟨hms1, by omega, by simp only [List.length_cons]; omega, ?_⟩
          have hrep : List.replicate ((nr + 1) - 1) false
              = false :: List.replicate (nr - 1) false := by
            have h1 : (nr + 1) - 1 = (nr - 1) + 1 := by omega
            rw [h1, List.replicate_succ]
          rw [List.take_succ_cons, htake, hrep]
          rfl
  · intro m
    induction m with
    | zero => rfl
    | succ k ih => simp [List.replicate_succ, runMainLoop, ih]

/-- C7 witness: with the exit flag false then true, the loop runs two
iterations, the prefix consumed is [false, true], and exactly one
Shutdown message is sent. -/
theorem C7_witness :
    runMainLoop [false, true] = some (2, [Msg.Shutdown]) ∧
    ([Msg.Shutdown] = [Msg.Shutdown] ∧ 1 ≤ 2 ∧ 2 ≤ [false, true].length ∧
      [false, true].take 2 = List.replicate (2 - 1) false ++ [true]) :=
  ⟨by decide,
   C7_terminates_only_on_exit_flag_single_shutdown.1 [false, true] 2
     [Msg.Shutdown] (by decide)⟩

/-- C8: in each main-loop iteration, the title and urgency side
channels are queried exactly when a draw is needed; a queried title is
always passed to window.set_title; and a queried urgency value u is
passed to window.set_urgent exactly when u is false or the window is
not focused. -/
theorem C8_side_channels_queried_iff_needs_draw :
    (∀ (nd : Bool) (nt : Option String) (nu : Option Bool) (f : Bool),
        (drawSection nd nt nu f).queriedTitle = nd
          ∧ (drawSection nd nt nu f).queriedUrgent = nd) ∧
    (∀ (t : String) (nu : Option Bool) (f : Bool),
        (drawSection true (some t) nu f).titlesSet = [t]) ∧
    (∀ (nt : Option String) (u f : Bool),
        (drawSection true nt (some u) f).urgentsSet =
          if u = false ∨ f = false then [u] else []) := by
  refine ⟨?_, ?_, ?_⟩
  · intro nd nt nu f
    cases nd <;> simp [drawSection]
  · intro t nu f
    simp [drawSection]
  · intro nt u f
    cases u <;> cases f <;> simp [drawSection]

/-- Helper: adjusting a line to the width it already has changes
nothing. -/
theorem resizeLine_self (c : Nat) (l : List Cell) (h : l.length = c) :
    resizeLine c l = l := by
  subst h
  simp [resizeLine]

/-- Helper: adjusting every line of a well-formed region to the width
it already has changes nothing. -/
theorem map_resizeLine_self (c : Nat) (ls : List (List Cell))
    (h : ∀ l ∈ ls, l.length = c) : ls.map (resizeLine c) = ls := by
  induction ls with
  | nil => rfl
  | cons x xs ih =>
    have hx := h x (List.mem_cons_self x xs)
    have hxs := ih (fun l hl => h l (List.mem_cons_of_mem x hl))
    simp [resizeLine_self c x hx, hxs]

/-- C5: resizing a well-formed terminal grid to the dimensions it
already has (as handle_resize does after a font-size change with no
pending window resize) leaves the grid content — visible region and
scrollback — and the in-bounds cursor position unchanged. -/
theorem C5_resize_same_size_noop (g : Grid) (cur : Cursor)
    (hwf : g.wellFormed) (hrow : cur.row < g.visible.length)
    (hcol : cur.col < g.cols) :
    termGridResize g cur g.visible.length g.cols = (g, cur) := by
  obtain ⟨hv, hs⟩ := hwf
  have hmapv : g.visible.map (resizeLine g.cols) = g.visible :=
    map_resizeLine_self _ _ hv
  have hmaps : g.scrollback.map (resizeLine g.cols) = g.scrollback :=
    map_resizeLine_self _ _ hs
  have hg : g.resize g.visible.length g.cols = g := by
    simp only [Grid.resize, hmapv, hmaps]
    simp
  have hc : clampCursor cur g.visible.length g.cols = cur := by
    have h1 : min cur.row (g.visible.length - 1) = cur.row :=
      Nat.min_eq_left (by omega)
    have h2 : min cur.col (g.cols - 1) = cur.col :=
      Nat.min_eq_left (by omega)
    simp [clampCursor, h1, h2]
  simp [termGridResize, hg, hc]

/-- C5 witness: the same-size resize of the concrete 2 x 2 grid with
the cursor at row 0, column 1, changes neither. -/
theorem C5_witness :
    grid0.wellFormed ∧ (0 : Nat) < grid0.visible.length ∧ (1 : Nat) < grid0.cols ∧
    termGridResize grid0 { row := 0, col := 1 } grid0.visible.length grid0.cols
      = (grid0, { row := 0, col := 1 }) :=
  ⟨by constructor <;> decide, by decide, by decide,
   C5_resize_same_size_noop grid0 { row := 0, col := 1 }
     ⟨by decide, by decide⟩ (by decide) (by decide)⟩

/-- Helper for the fairness bound: along any legal event sequence in
which the I/O loop, already waiting in the queue, is never granted the
lock, the number of consumer acquisitions is at most the I/O loop's
starting queue position. -/
theorem runLock_consumer_grant_bound :
    ∀ (evs : List LockEvent) (s s1 : LockState),
      runLock s evs = some s1 → Thread.ioLoop ∈ s.queue →
      LockEvent.grant Thread.ioLoop ∉ evs →
      evs.count (LockEvent.grant Thread.consumer) ≤ s.queue.indexOf Thread.ioLoop := by
  intro evs
  induction evs with
  | nil =>
    intro s s1 _ _ _
    simp
  | cons e rest ih =>
    intro s s1 hrun hmem hno
    rw [List.mem_cons] at hno
    push_neg at hno
    obtain ⟨hne, hno2⟩ := hno
    cases e with
    | request t =>
      simp only [runLock, lockStep] at hrun
      have hmem2 : Thread.ioLoop ∈ s.queue ++ [t] := List.mem_append_left _ hmem
      have hb := ih { s with queue := s.queue ++ [t] } s1 hrun hmem2 hno2
      rw [List.indexOf_append_of_mem hmem] at hb
      calc (LockEvent.request t :: rest).count (LockEvent.grant Thread.consumer)
          = rest.count (LockEvent.grant Thread.consumer) := by
            simp [List.count_cons]
        _ ≤ s.queue.indexOf Thread.ioLoop := hb
    | grant t =>
      simp only [runLock, lockStep] at hrun
      split at hrun
      · rename_i s2 heq
        split at heq
        · rename_i u qrest howner hq
          split at heq
          · rename_i hut
            obtain hs2 := Option.some.inj heq
            subst hs2
            have htio : t ≠ Thread.ioLoop := by
              intro hcontra
              exact hne (by rw [hcontra])
            have huio : u ≠ Thread.ioLoop := by
              rw [hut]; exact htio
            have hmem2 : Thread.ioLoop ∈ qrest := by
              rw [hq] at hmem
              rcases List.mem_cons.mp hmem with hcase | hcase
              · exact absurd hcase.symm huio
              · exact hcase
            have hb : rest.count (LockEvent.grant Thread.consumer)
                ≤ qrest.indexOf Thread.ioLoop :=
              ih { owner := some t, queue := qrest } s1 hrun hmem2 hno2
            have hcount : (LockEvent.grant t :: rest).count
                (LockEvent.grant Thread.consumer)
                ≤ rest.count (LockEvent.grant Thread.consumer) + 1 := by
              rw [List.count_cons]
              split <;> omega
            have hidx : s.queue.indexOf Thread.ioLoop
                = qrest.indexOf Thread.ioLoop + 1 := by
              rw [hq, List.indexOf_cons_ne qrest huio]
            omega
          · simp at heq
        · simp at heq
      · simp at hrun
    | release t =>
      simp only [runLock, lockStep] at hrun
      by_cases ho : s.owner = some t
      · rw [if_pos ho] at hrun
        simp only at hrun
        have hb := ih { owner := none, queue := s.queue } s1 hrun hmem hno2
        calc (LockEvent.release t :: rest).count (LockEvent.grant Thread.consumer)
            = rest.count (LockEvent.grant Thread.consumer) := by
              simp [List.count_cons]
          _ ≤ s.queue.indexOf Thread.ioLoop := hb
      · rw [if_neg ho] at hrun
        simp at hrun

/-- C6: the modelled Synchronization Wrapper is a fair FIFO lock — in
every legal execution in which the I/O loop is waiting in the queue
and has not yet been granted the lock, the render consumer acquires
the lock at most as many times as there are threads ahead of the I/O
loop, a number strictly below the queue length; so the I/O loop's
acquisition succeeds within a bounded number of consumer
acquisitions. -/
theorem C6_fair_lock_bounded_bypass (evs : List LockEvent) (s s1 : LockState)
    (hrun : runLock s evs = some s1) (hmem : Thread.ioLoop ∈ s.queue)
    (hno : LockEvent.grant Thread.ioLoop ∉ evs) :
    evs.count (LockEvent.grant Thread.consumer) ≤ s.queue.indexOf Thread.ioLoop
      ∧ s.queue.indexOf Thread.ioLoop < s.queue.length :=
  ⟨runLock_consumer_grant_bound evs s s1 hrun hmem hno,
   List.indexOf_lt_length.mpr hmem⟩

/-- C6 witness: from a state where the consumer owns the lock and the
I/O loop waits at the front of the queue, the consumer releasing and
requesting again acquires zero further times before the I/O loop. -/
theorem C6_witness :
    runLock { owner := some Thread.consumer, queue := [Thread.ioLoop] }
        [LockEvent.release Thread.consumer, LockEvent.request Thread.consumer]
      = some { owner := none, queue := [Thread.ioLoop, Thread.consumer] } ∧
    Thread.ioLoop ∈ ([Thread.ioLoop] : List Thread) ∧
    LockEvent.grant Thread.ioLoop
      ∉ [LockEvent.release Thread.consumer, LockEvent.request Thread.consumer] ∧
    ([LockEvent.release Thread.consumer,
      LockEvent.request Thread.consumer].count
        (LockEvent.grant Thread.consumer)
      ≤ ([Thread.ioLoop] : List Thread).indexOf Thread.ioLoop
    ∧ ([Thread.ioLoop] : List Thread).indexOf Thread.ioLoop
      < ([Thread.ioLoop] : List Thread).length) :=
  ⟨by decide, by decide, by decide,
   C6_fair_lock_bounded_bypass
     [LockEvent.release Thread.consumer, LockEvent.request Thread.consumer]
     { owner := some Thread.consumer, queue := [Thread.ioLoop] }
     { owner := none, queue := [Thread.ioLoop, Thread.consumer] }
     (by decide) (by decide) (by decide)⟩

/-- C9: when the initial size is given in cells and no u32 overflow
occurs, Display::new computes the window size exactly as
cell_width * columns + 2 * padding_x by
cell_height * lines + 2 * padding_y, and the very same numbers are
passed to the renderer and recorded in the SizeInfo. -/
theorem C9_initial_window_size_exact (cw ch cols lns px py : Nat)
    (hw : cw * cols + 2 * px < 2 ^ 32) (hh : ch * lns + 2 * py < 2 ^ 32) :
    display_new_cells cw ch { columns := cols, lines := lns }
        { x := px, y := py }
      = ((cw * cols + 2 * px, ch * lns + 2 * py),
         { width := cw * cols + 2 * px, height := ch * lns + 2 * py,
           cell_width := cw, cell_height := ch,
           padding_x := px, padding_y := py }) := by
  have h1 : cw * cols % 2 ^ 32 = cw * cols := Nat.mod_eq_of_lt (by omega)
  have h2 : ch * lns % 2 ^ 32 = ch * lns := Nat.mod_eq_of_lt (by omega)
  simp only [display_new_cells, h1, h2, Nat.mod_eq_of_lt hw, Nat.mod_eq_of_lt hh]

/-- C9 witness: an 80 x 24 terminal with 8 x 16 cells and 2-pixel
padding yields a 644 x 388 window, recorded identically in the
SizeInfo. -/
theorem C9_witness :
    8 * 80 + 2 * 2 < 2 ^ 32 ∧ 16 * 24 + 2 * 2 < 2 ^ 32 ∧
    display_new_cells 8 16 { columns := 80, lines := 24 } { x := 2, y := 2 }
      = ((8 * 80 + 2 * 2, 16 * 24 + 2 * 2),
         { width := 8 * 80 + 2 * 2, height := 16 * 24 + 2 * 2,
           cell_width := 8, cell_height := 16,
           padding_x := 2, padding_y := 2 }) :=
  ⟨by norm_num, by norm_num,
   C9_initial_window_size_exact 8 16 80 24 2 2 (by norm_num) (by norm_num)⟩

/-- C10: new_glyph_cache panics exactly when the computed cell width
or cell height (font metric plus configured offset) is below 1;
otherwise it returns the floored cell dimensions, which are at
least 1. -/
theorem C10_glyph_cache_panic_iff_cell_below_one
    (average_advance line_height : ℚ) (offset_x offset_y : ℤ) :
    (new_glyph_cache average_advance line_height offset_x offset_y = none
      ↔ average_advance + (offset_x : ℚ) < 1
        ∨ line_height + (offset_y : ℚ) < 1) ∧
    (∀ w h : ℤ,
      new_glyph_cache average_advance line_height offset_x offset_y
          = some (w, h) →
      w = ⌊average_advance + (offset_x : ℚ)⌋
        ∧ h = ⌊line_height + (offset_y : ℚ)⌋ ∧ 1 ≤ w ∧ 1 ≤ h) := by
  constructor
  · unfold new_glyph_cache
    split
    · rename_i hcond
      simpa using hcond
    · rename_i hcond
      simpa using hcond
  · intro w h hsome
    unfold new_glyph_cache at hsome
    split at hsome
    · exact absurd hsome (by simp)
    · rename_i hcond
      push_neg at hcond
      obtain ⟨h1, h2⟩ := hcond
      obtain ⟨hw, hh⟩ := Prod.mk.inj (Option.some.inj hsome)
      refine ⟨hw.symm, hh.symm, ?_, ?_⟩
      · rw [← hw]
        exact Int.le_floor.mpr (by exact_mod_cast h1)
      · rw [← hh]
        exact Int.le_floor.mpr (by exact_mod_cast h2)

/-- C10 witness: an average advance of 10 with offset -2 and a line
height of 12 with offset 0 construct successfully, with floored cell
dimensions 8 x 12, both at least 1. -/
theorem C10_witness :
    new_glyph_cache 10 12 (-2) 0 = some (8, 12) ∧
    ((8 : ℤ) = ⌊(10 : ℚ) + ((-2 : ℤ) : ℚ)⌋
      ∧ (12 : ℤ) = ⌊(12 : ℚ) + ((0 : ℤ) : ℚ)⌋
      ∧ 1 ≤ (8 : ℤ) ∧ 1 ≤ (12 : ℤ)) :=
  ⟨by norm_num [new_glyph_cache],
   (C10_glyph_cache_panic_iff_cell_below_one 10 12 (-2) 0).2 8 12
     (by norm_num [new_glyph_cache])⟩
